import Mathlib

/-!
Shallow embedding of the Todo API service (`src/FastAPI/src/main.py`).

The service is a single in-memory table of items keyed by UUID, exposed
through create / get / update / delete / list / stats endpoints.  The
embedding models:
  * UUIDs as natural numbers (opaque identifiers),
  * timestamps (`datetime.now(timezone.utc)`) as natural numbers, passed
    explicitly to each operation as `now`,
  * the `items_store` dict as a list of items in insertion order (Python
    dicts preserve insertion order; `items_store.values()` iterates in it),
  * pydantic request validation as boolean predicates checked before the
    handler body runs,
  * fallible endpoints as `Except AppError`.
-/

namespace TodoAPI

/-- Timestamps: `datetime.now(timezone.utc)` values, modelled as naturals. -/
abbrev Timestamp := Nat

/-- The stored/returned item (`ItemResponse`, main.py:31-34): id, text,
completion flag, creation time, optional update time. -/
structure ItemResponse where
  id : Nat
  text : String
  is_done : Bool
  created_at : Timestamp
  updated_at : Option Timestamp
deriving DecidableEq, Repr

/-- Create request body (`ItemCreate`/`ItemBase`, main.py:18-24):
`text` plus `is_done` defaulting to `false`. -/
structure ItemCreate where
  text : String
  is_done : Bool := false
deriving DecidableEq, Repr

/-- Update request body (`ItemUpdate`, main.py:26-29).  `none` models a
field absent from the request (pydantic `exclude_unset` leaves it out of
`update_data`); `some v` models a supplied value. -/
structure ItemUpdate where
  text : Option String := none
  is_done : Option Bool := none
deriving DecidableEq, Repr

/-- `HTTPException(status_code, detail)` as raised in main.py:124-127. -/
structure HTTPExc where
  status_code : Nat
  detail : String
deriving DecidableEq, Repr

/-- An endpoint failure: either a pydantic/FastAPI request-validation
rejection (HTTP 422) naming the offending fields, or an `HTTPException`
raised by the application code. -/
inductive AppError where
  | validation (fields : List String)
  | httpExc (e : HTTPExc)
deriving DecidableEq, Repr

/-- The `items_store` dict (main.py:61), as its value list in insertion
order.  Keys are the items' `id` fields (the store is keyed by `item_id`
and every stored value carries `id = item_id`). -/
abbrev Registry := List ItemResponse

/-- The pydantic constraint `Field(..., min_length=1, max_length=500)` on
`text` (main.py:19, main.py:28). -/
def validText (t : String) : Bool :=
  1 ≤ t.length && t.length ≤ 500

/-- Request validation for `ItemCreate`: `text` is required and
length-constrained (main.py:18-24). -/
def validItemCreate (c : ItemCreate) : Bool :=
  validText c.text

/-- Request validation for `ItemUpdate`: a supplied `text` is
length-constrained; an absent `text` is fine (main.py:26-29). -/
def validItemUpdate (u : ItemUpdate) : Bool :=
  match u.text with
  | none => true
  | some t => validText t

/-- Dict lookup `items_store[item_id]` / `item_id in items_store`:
find the stored item whose `id` is `id`. -/
def itemsStoreLookup (st : Registry) (id : Nat) : Option ItemResponse :=
  st.find? (fun it => it.id == id)

/-- The `get_item_by_id` dependency (main.py:118-128): 404 with a detail
message naming the id when absent, the stored item otherwise. -/
def get_item_by_id (st : Registry) (id : Nat) : Except HTTPExc ItemResponse :=
  match itemsStoreLookup st id with
  | none =>
      Except.error
        { status_code := 404
          detail := "Item with id " ++ toString id ++ " not found" }
  | some it => Except.ok it

/-- `create_item` (main.py:180-196): after body validation, build the new
item with a fresh id, `created_at := now`, `updated_at := None`, store it
(dict insertion appends) and return it. -/
def create_item (st : Registry) (req : ItemCreate) (freshId : Nat)
    (now : Timestamp) : Except AppError (ItemResponse × Registry) :=
  if validItemCreate req then
    let new_item : ItemResponse :=
      { id := freshId
        text := req.text
        is_done := req.is_done
        created_at := now
        updated_at := none }
    Except.ok (new_item, st ++ [new_item])
  else
    Except.error (AppError.validation ["text"])

/-- Substring test on character lists: Python's `needle in hay` for
strings (used at main.py:228). -/
def subAt (needle : List Char) : List Char → Bool
  | [] => needle.isEmpty
  | c :: rest => needle.isPrefixOf (c :: rest) || subAt needle rest

/-- Python `needle in hay` on strings: substring containment. -/
def containsSub (needle hay : String) : Bool :=
  subAt needle.data hay.data

/-- Python `s.lower()` (main.py:225, main.py:228), character by
character.  (`Char.toLower` lowercases ASCII letters; the source's
`str.lower()` restricted to the ASCII range behaves the same.) -/
def strLower (s : String) : String :=
  String.mk (s.data.map Char.toLower)

/-- One insertion step of the stable descending sort: walk past the
elements with strictly greater `created_at` and place `x` in front of the
first element whose `created_at` is not greater — so in front of every
element with an equal or smaller key. -/
def insertDesc (x : ItemResponse) : List ItemResponse → List ItemResponse
  | [] => [x]
  | y :: ys =>
      if y.created_at ≤ x.created_at then x :: y :: ys
      else y :: insertDesc x ys

/-- The sort at main.py:232:
`filtered_items.sort(key=lambda x: x.created_at, reverse=True)`.
Python's sort is stable, and `reverse=True` keeps elements with equal keys
in their original order, so the call is exactly a stable descending sort
by `created_at`.  Stable sorts of the same list under the same key agree,
so this insertion sort (each element is placed in front of the equal-key
elements that follow it in the input) computes the same list. -/
def sortDesc : List ItemResponse → List ItemResponse
  | [] => []
  | x :: xs => insertDesc x (sortDesc xs)

/-- Python slice `l[a:b]` for `0 ≤ a` and `0 ≤ b` (main.py:235). -/
def pySlice (l : List ItemResponse) (a b : Nat) : List ItemResponse :=
  (l.take b).drop a

/-- `list_items` (main.py:206-237).  Query validation first
(`limit` in `[1,100]`, `search` non-empty when present; `skip : Nat`
captures `ge=0`), then the handler body: optional `is_done` equality
filter, optional case-insensitive substring filter, stable descending
sort by `created_at`, then the slice `[skip : skip+limit]`. -/
def list_items (st : Registry) (limit skip : Nat) (is_done : Option Bool)
    (search : Option String) : Except AppError (List ItemResponse) :=
  if 1 ≤ limit ∧ limit ≤ 100 then
    if search = some "" then
      Except.error (AppError.validation ["search"])
    else
      let all_items := st
      let filtered₁ :=
        match is_done with
        | none => all_items
        | some d => all_items.filter (fun it => it.is_done == d)
      let filtered₂ :=
        match search with
        | none => filtered₁
        | some s =>
            if s.isEmpty then filtered₁
            else filtered₁.filter
              (fun it => containsSub (strLower s) (strLower it.text))
      Except.ok (pySlice (sortDesc filtered₂) skip (skip + limit))
  else
    Except.error (AppError.validation ["limit"])

/-- The stats payload returned by `get_items_stats` (main.py:254-259).
`completion_rate` is exact rational arithmetic standing for the float
computation. -/
structure StatsResponse where
  total_items : Nat
  completed_items : Nat
  pending_items : Nat
  completion_rate : ℚ
deriving DecidableEq, Repr

/-- Python `round` to an integer: round half to even. -/
def roundHalfEven (q : ℚ) : ℤ :=
  if q - q.floor < 1 / 2 then q.floor
  else if 1 / 2 < q - q.floor then q.floor + 1
  else if q.floor % 2 = 0 then q.floor else q.floor + 1

/-- Python `round(q, 2)`: round to two decimal places, half to even
(idealised over ℚ; the source computes on floats). -/
def pyRound2 (q : ℚ) : ℚ :=
  (roundHalfEven (q * 100) : ℚ) / 100

/-- `get_items_stats` (main.py:246-259): total count, count of completed
items (`sum(1 for item in items_store.values() if item.is_done)`),
pending as the difference, and the rounded completion rate (0 when the
store is empty). -/
def get_items_stats (st : Registry) : StatsResponse :=
  let total_items := st.length
  let completed_items := st.countP (fun it => it.is_done)
  { total_items := total_items
    completed_items := completed_items
    pending_items := total_items - completed_items
    completion_rate :=
      if 0 < total_items then
        pyRound2 ((completed_items : ℚ) / (total_items : ℚ) * 100)
      else 0 }

/-- Write-back of the in-place `setattr` mutation (main.py:291-293): the
stored object with key `id` now holds `it'`; all other entries are
untouched. -/
def replaceItem (st : Registry) (id : Nat) (it' : ItemResponse) : Registry :=
  st.map (fun x => if x.id == id then it' else x)

/-- The body of `update_item` (main.py:288-293):
`update_data = item_update.model_dump(exclude_unset=True)`; if it is
non-empty, overwrite exactly the supplied fields and set
`updated_at := now`; otherwise leave the item untouched. -/
def applyUpdate (it : ItemResponse) (upd : ItemUpdate)
    (now : Timestamp) : ItemResponse :=
  if upd.text.isSome || upd.is_done.isSome then
    { it with
      text := upd.text.getD it.text
      is_done := upd.is_done.getD it.is_done
      updated_at := some now }
  else it

/-- `update_item` (main.py:282-297): body validation (422 on a bad
`text`), then the `get_item_by_id` dependency (404 when absent), then the
in-place field update, returning the updated item and the new store. -/
def update_item (st : Registry) (id : Nat) (upd : ItemUpdate)
    (now : Timestamp) : Except AppError (ItemResponse × Registry) :=
  if validItemUpdate upd then
    match get_item_by_id st id with
    | Except.error e => Except.error (AppError.httpExc e)
    | Except.ok it =>
        let it' := applyUpdate it upd now
        Except.ok (it', replaceItem st id it')
  else
    Except.error (AppError.validation ["text"])

/-- `delete_item` (main.py:307-311): 404 via the dependency when absent,
otherwise `del items_store[item.id]` removes the entry. -/
def delete_item (st : Registry) (id : Nat) : Except AppError Registry :=
  match get_item_by_id st id with
  | Except.error e => Except.error (AppError.httpExc e)
  | Except.ok it => Except.ok (st.eraseP (fun x => x.id == it.id))

/-- `ErrorResponse` (main.py:54-58): the standard error body
`{detail, status_code, timestamp}`. -/
structure ErrorResponse where
  detail : String
  status_code : Nat
  timestamp : Timestamp
deriving DecidableEq, Repr

/-- `http_exception_handler` (main.py:131-141): render an `HTTPException`
as an `ErrorResponse` stamped with the current time. -/
def http_exception_handler (exc : HTTPExc) (now : Timestamp) : ErrorResponse :=
  { detail := exc.detail
    status_code := exc.status_code
    timestamp := now }

/-- The body of an error response as seen by a client: either the
standard `ErrorResponse` shape, or the framework's default
request-validation body. -/
inductive ErrorBody where
  | standard (e : ErrorResponse)
  | validationDefault (errs : List String)
deriving DecidableEq, Repr

/-- Rendering of an endpoint failure.  The application registers an
exception handler only for `HTTPException` (main.py:131), so those
errors go through `http_exception_handler` and get the `ErrorResponse`
shape.  Request-validation failures (`RequestValidationError`, HTTP 422)
have no registered handler; the framework default renders them as
`{"detail": [list of errors]}`, a body with no `status_code` and no
`timestamp` field — modelled here as `ErrorBody.validationDefault`. -/
def renderError (e : AppError) (now : Timestamp) : ErrorBody :=
  match e with
  | AppError.httpExc exc => ErrorBody.standard (http_exception_handler exc now)
  | AppError.validation errs => ErrorBody.validationDefault errs

/-- Whether an error body has the standard
`{detail, status_code, timestamp}` shape. -/
def isStandardErrorShape : ErrorBody → Bool
  | ErrorBody.standard _ => true
  | ErrorBody.validationDefault _ => false

/-- One registry operation, as named by the spec. -/
inductive Op where
  | create (req : ItemCreate) (freshId : Nat)
  | get (id : Nat)
  | update (id : Nat) (upd : ItemUpdate)
  | delete (id : Nat)
  | list (limit skip : Nat) (is_done : Option Bool) (search : Option String)
  | stats
deriving DecidableEq, Repr

/-- The registry state after an operation.  Reads leave the store as it
is; a rejected mutation (validation error or 404) leaves it as it is;
a successful mutation installs the new store. -/
def applyOp (st : Registry) (op : Op) (now : Timestamp) : Registry :=
  match op with
  | Op.create req freshId =>
      match create_item st req freshId now with
      | Except.ok (_, st') => st'
      | Except.error _ => st
  | Op.update id upd =>
      match update_item st id upd now with
      | Except.ok (_, st') => st'
      | Except.error _ => st
  | Op.delete id =>
      match delete_item st id with
      | Except.ok st' => st'
      | Except.error _ => st
  | Op.get _ => st
  | Op.list _ _ _ _ => st
  | Op.stats => st

/-- The item list of a successful `list_items` call (`[]` on failure);
used to state properties of successful calls. -/
def listOk (st : Registry) (limit skip : Nat) (is_done : Option Bool)
    (search : Option String) : List ItemResponse :=
  (list_items st limit skip is_done search).toOption.getD []

/-- No two stored items share an id — the dict-keyed-by-id structure of
`items_store`. -/
def KeysUnique (st : Registry) : Prop :=
  st.Pairwise (fun a b => a.id ≠ b.id)

/-- Timestamp well-formedness of one item: `updated_at` is absent or
at least `created_at`. -/
def wfItem (it : ItemResponse) : Prop :=
  it.created_at ≤ it.updated_at.getD it.created_at

/-- Timestamp well-formedness of the whole store. -/
def wfTimes (st : Registry) : Prop :=
  ∀ it ∈ st, wfItem it

/-- The `is_done` equality filter of List as a single predicate:
pass everything when no filter is given, otherwise compare the flag. -/
def passDone (d : Option Bool) (it : ItemResponse) : Bool :=
  match d with
  | none => true
  | some b => it.is_done == b

/-- The case-insensitive substring filter of List as a single predicate:
pass everything when no search is given, otherwise lowercase both sides
and test containment. -/
def passSearch (s : Option String) (it : ItemResponse) : Bool :=
  match s with
  | none => true
  | some q => containsSub (strLower q) (strLower it.text)

instance (st : Registry) : Decidable (KeysUnique st) := by
  unfold KeysUnique
  infer_instance

instance (it : ItemResponse) : Decidable (wfItem it) := by
  unfold wfItem
  infer_instance

instance (st : Registry) : Decidable (wfTimes st) := by
  unfold wfTimes
  infer_instance

instance exceptDecEq {ε α : Type} [DecidableEq ε] [DecidableEq α] :
    DecidableEq (Except ε α) := fun x y =>
  match x, y with
  | Except.ok a, Except.ok b =>
      if h : a = b then isTrue (by rw [h])
      else isFalse (by intro hc; cases hc; exact h rfl)
  | Except.ok _, Except.error _ => isFalse (by intro hc; cases hc)
  | Except.error _, Except.ok _ => isFalse (by intro hc; cases hc)
  | Except.error e, Except.error f =>
      if h : e = f then isTrue (by rw [h])
      else isFalse (by intro hc; cases hc; exact h rfl)

/-! ### Store helper lemmas -/

lemma lookup_id {st : Registry} {id : Nat} {it : ItemResponse}
    (h : itemsStoreLookup st id = some it) : it.id = id := by
  have := List.find?_some h
  simpa using this

lemma lookup_mem {st : Registry} {id : Nat} {it : ItemResponse}
    (h : itemsStoreLookup st id = some it) : it ∈ st :=
  List.mem_of_find?_eq_some h

lemma find?_cons_eq {α : Type} (p : α → Bool) (x : α) (xs : List α) :
    List.find? p (x :: xs) = if p x then some x else List.find? p xs := by
  by_cases h : p x
  · rw [List.find?_cons_of_pos _ h, if_pos h]
  · rw [List.find?_cons_of_neg _ h, if_neg h]

lemma beq_true_of_eq {a b : Nat} (h : a = b) : (a == b) = true := by
  simp [h]

lemma beq_false_of_ne {a b : Nat} (h : ¬ a = b) : ¬ (a == b) = true := by
  simp [h]

lemma lookup_replaceItem_self {st : Registry} {id : Nat} {it it' : ItemResponse}
    (hid : it'.id = id) (h : itemsStoreLookup st id = some it) :
    itemsStoreLookup (replaceItem st id it') id = some it' := by
  induction st with
  | nil => simp [itemsStoreLookup] at h
  | cons x xs ih =>
      simp only [itemsStoreLookup, replaceItem, List.map_cons] at h ih ⊢
      rw [find?_cons_eq] at h ⊢
      by_cases hx : x.id = id
      · rw [if_pos (beq_true_of_eq hx), if_pos (beq_true_of_eq hid)]
      · rw [if_neg (beq_false_of_ne hx)] at h
        rw [if_neg (beq_false_of_ne hx), if_neg (beq_false_of_ne hx)]
        exact ih h

lemma lookup_replaceItem_ne {st : Registry} {id j : Nat} {it' : ItemResponse}
    (hid : it'.id = id) (hj : j ≠ id) :
    itemsStoreLookup (replaceItem st id it') j = itemsStoreLookup st j := by
  induction st with
  | nil => rfl
  | cons x xs ih =>
      simp only [itemsStoreLookup, replaceItem, List.map_cons] at ih ⊢
      rw [find?_cons_eq, find?_cons_eq]
      by_cases hx : x.id = id
      · rw [if_pos (beq_true_of_eq hx),
          if_neg (beq_false_of_ne (fun hc : it'.id = j => hj (hid ▸ hc).symm)),
          if_neg (beq_false_of_ne (fun hc : x.id = j => hj ((hx ▸ hc).symm)))]
        exact ih
      · rw [if_neg (beq_false_of_ne hx)]
        by_cases hxj : x.id = j
        · rw [if_pos (beq_true_of_eq hxj), if_pos (beq_true_of_eq hxj)]
        · rw [if_neg (beq_false_of_ne hxj), if_neg (beq_false_of_ne hxj)]
          exact ih

lemma replaceItem_of_absent {l : Registry} {id : Nat} {it : ItemResponse}
    (h : ∀ y ∈ l, y.id ≠ id) : replaceItem l id it = l := by
  induction l with
  | nil => rfl
  | cons x xs ih =>
      simp only [replaceItem, List.map_cons] at ih ⊢
      rw [if_neg (beq_false_of_ne (h x (List.mem_cons_self x xs))),
        ih (fun y hy => h y (List.mem_cons_of_mem x hy))]

lemma replaceItem_lookup_self_eq {st : Registry} {id : Nat} {it : ItemResponse}
    (hk : KeysUnique st) (h : itemsStoreLookup st id = some it) :
    replaceItem st id it = st := by
  induction st with
  | nil => rfl
  | cons x xs ih =>
      rcases List.pairwise_cons.mp hk with ⟨hx, hk'⟩
      simp only [itemsStoreLookup, find?_cons_eq] at h
      simp only [replaceItem, List.map_cons] at ih ⊢
      by_cases hxi : x.id = id
      · rw [if_pos (beq_true_of_eq hxi)] at h ⊢
        have hit : it = x := (Option.some_inj.mp h).symm
        subst hit
        have habs : replaceItem xs id it = xs :=
          replaceItem_of_absent (fun y hy => hxi ▸ (hx y hy).symm)
        simp only [replaceItem] at habs
        rw [habs]
      · rw [if_neg (beq_false_of_ne hxi)] at h ⊢
        rw [ih hk' h]

lemma lookup_append_left {st : Registry} {l : Registry} {j : Nat}
    {it : ItemResponse} (h : itemsStoreLookup st j = some it) :
    itemsStoreLookup (st ++ l) j = some it := by
  unfold itemsStoreLookup at h ⊢
  rw [List.find?_append, h]
  rfl

lemma lookup_eraseP_ne {st : Registry} {d j : Nat} (hne : j ≠ d) :
    itemsStoreLookup (st.eraseP (fun x => x.id == d)) j =
      itemsStoreLookup st j := by
  induction st with
  | nil => rfl
  | cons x xs ih =>
      by_cases hxd : x.id = d
      · rw [@List.eraseP_cons_of_pos _ x xs (fun y => y.id == d) (beq_true_of_eq hxd)]
        simp only [itemsStoreLookup, find?_cons_eq]
        rw [if_neg (beq_false_of_ne (fun hc : x.id = j => hne ((hxd ▸ hc).symm)))]
      · rw [@List.eraseP_cons_of_neg _ x xs (fun y => y.id == d) (beq_false_of_ne hxd)]
        simp only [itemsStoreLookup, find?_cons_eq] at ih ⊢
        by_cases hxj : x.id = j
        · rw [if_pos (beq_true_of_eq hxj), if_pos (beq_true_of_eq hxj)]
        · rw [if_neg (beq_false_of_ne hxj), if_neg (beq_false_of_ne hxj)]
          exact ih

lemma lookup_eraseP_self {st : Registry} {d : Nat} (hk : KeysUnique st) :
    itemsStoreLookup (st.eraseP (fun x => x.id == d)) d = none := by
  induction st with
  | nil => rfl
  | cons x xs ih =>
      rcases List.pairwise_cons.mp hk with ⟨hx, hk'⟩
      by_cases hxd : x.id = d
      · rw [@List.eraseP_cons_of_pos _ x xs (fun y => y.id == d) (beq_true_of_eq hxd)]
        unfold itemsStoreLookup
        rw [List.find?_eq_none]
        intro y hy
        simp [hxd ▸ (hx y hy).symm]
      · rw [@List.eraseP_cons_of_neg _ x xs (fun y => y.id == d) (beq_false_of_ne hxd)]
        simp only [itemsStoreLookup, find?_cons_eq] at ih ⊢
        rw [if_neg (beq_false_of_ne hxd)]
        exact ih hk'

/-! ### Sort lemmas -/

lemma insertDesc_perm (x : ItemResponse) (l : List ItemResponse) :
    (insertDesc x l).Perm (x :: l) := by
  induction l with
  | nil => exact List.Perm.refl _
  | cons y ys ih =>
      unfold insertDesc
      by_cases h : y.created_at ≤ x.created_at
      · rw [if_pos h]
      · rw [if_neg h]
        exact (ih.cons y).trans (List.Perm.swap x y ys)

lemma sortDesc_perm (l : List ItemResponse) : (sortDesc l).Perm l := by
  induction l with
  | nil => exact List.Perm.refl _
  | cons x xs ih =>
      unfold sortDesc
      exact (insertDesc_perm x (sortDesc xs)).trans (ih.cons x)

lemma mem_insertDesc {a x : ItemResponse} {l : List ItemResponse} :
    a ∈ insertDesc x l ↔ a = x ∨ a ∈ l := by
  rw [(insertDesc_perm x l).mem_iff, List.mem_cons]

lemma sortDesc_mem {a : ItemResponse} {l : List ItemResponse} :
    a ∈ sortDesc l ↔ a ∈ l :=
  (sortDesc_perm l).mem_iff

lemma sortDesc_length (l : List ItemResponse) :
    (sortDesc l).length = l.length :=
  (sortDesc_perm l).length_eq

lemma insertDesc_pairwise {x : ItemResponse} {l : List ItemResponse}
    (hl : l.Pairwise (fun a b => b.created_at ≤ a.created_at)) :
    (insertDesc x l).Pairwise (fun a b => b.created_at ≤ a.created_at) := by
  induction l with
  | nil =>
      unfold insertDesc
      exact List.pairwise_cons.mpr
        ⟨fun y hy => absurd hy (List.not_mem_nil y), List.Pairwise.nil⟩
  | cons y ys ih =>
      rcases List.pairwise_cons.mp hl with ⟨hy, hys⟩
      unfold insertDesc
      by_cases h : y.created_at ≤ x.created_at
      · rw [if_pos h]
        refine List.pairwise_cons.mpr ⟨?_, hl⟩
        intro z hz
        rcases List.mem_cons.mp hz with rfl | hz
        · exact h
        · exact Nat.le_trans (hy z hz) h
      · rw [if_neg h]
        refine List.pairwise_cons.mpr ⟨?_, ih hys⟩
        intro z hz
        rcases mem_insertDesc.mp hz with rfl | hz
        · exact Nat.le_of_lt (Nat.lt_of_not_le h)
        · exact hy z hz

lemma sortDesc_pairwise (l : List ItemResponse) :
    (sortDesc l).Pairwise (fun a b => b.created_at ≤ a.created_at) := by
  induction l with
  | nil => exact List.Pairwise.nil
  | cons x xs ih =>
      unfold sortDesc
      exact insertDesc_pairwise ih

lemma filter_insertDesc (x : ItemResponse) (l : List ItemResponse) (t : Nat) :
    (insertDesc x l).filter (fun y => y.created_at == t) =
      if x.created_at = t then
        x :: l.filter (fun y => y.created_at == t)
      else l.filter (fun y => y.created_at == t) := by
  induction l with
  | nil =>
      unfold insertDesc
      by_cases hx : x.created_at = t
      · rw [List.filter_cons,
          if_pos (show (x.created_at == t) = true by simpa using hx),
          if_pos hx]
      · rw [List.filter_cons,
          if_neg (show ¬ (x.created_at == t) = true by simpa using hx),
          if_neg hx]
  | cons y ys ih =>
      unfold insertDesc
      by_cases h : y.created_at ≤ x.created_at
      · rw [if_pos h, List.filter_cons]
        by_cases hx : x.created_at = t
        · rw [if_pos (show (x.created_at == t) = true by simpa using hx),
            if_pos hx]
        · rw [if_neg (show ¬ (x.created_at == t) = true by simpa using hx),
            if_neg hx]
      · rw [if_neg h, List.filter_cons, ih]
        by_cases hx : x.created_at = t
        · have hyt : ¬ (y.created_at == t) = true := by
            simp only [beq_iff_eq]
            intro hc
            exact h (Nat.le_of_eq (by rw [hc, hx]))
          rw [if_pos hx, if_neg hyt, List.filter_cons, if_neg hyt, if_pos hx]
        · rw [if_neg hx, if_neg hx, List.filter_cons]

lemma sortDesc_filter_key (l : List ItemResponse) (t : Nat) :
    (sortDesc l).filter (fun y => y.created_at == t) =
      l.filter (fun y => y.created_at == t) := by
  induction l with
  | nil => rfl
  | cons x xs ih =>
      unfold sortDesc
      rw [filter_insertDesc, List.filter_cons]
      by_cases hx : x.created_at = t
      · rw [if_pos hx, if_pos (by simpa using hx), ih]
      · rw [if_neg hx, if_neg (by simpa using hx), ih]

lemma pair_sublist_sortDesc {a b : ItemResponse} {l : List ItemResponse}
    (hab : a.created_at = b.created_at) (h : List.Sublist [a, b] l) :
    List.Sublist [a, b] (sortDesc l) := by
  have hfab : List.filter (fun y => y.created_at == a.created_at) [a, b] =
      [a, b] := by
    rw [List.filter_cons, List.filter_cons,
      if_pos (by simp), if_pos (by simp [hab.symm])]
    rfl
  have h1 : List.Sublist [a, b]
      (l.filter (fun y => y.created_at == a.created_at)) := by
    have := List.Sublist.filter (fun y => y.created_at == a.created_at) h
    rwa [hfab] at this
  rw [← sortDesc_filter_key] at h1
  exact h1.trans (List.filter_sublist _)

lemma sortedDesc_unique :
    ∀ (l₁ l₂ : List ItemResponse), l₁.Perm l₂ →
      l₁.Pairwise (fun a b => b.created_at ≤ a.created_at) →
      l₂.Pairwise (fun a b => b.created_at ≤ a.created_at) →
      (l₁.map (fun it => it.created_at)).Nodup → l₁ = l₂ := by
  intro l₁
  induction l₁ with
  | nil =>
      intro l₂ hp _ _ _
      exact (hp.symm.eq_nil).symm
  | cons x t ih =>
      intro l₂ hp h₁ h₂ hn
      cases l₂ with
      | nil => exact absurd (hp.subset (List.mem_cons_self x t)) (by simp)
      | cons y t₂ =>
          rcases List.pairwise_cons.mp h₁ with ⟨hx1, h₁'⟩
          rcases List.pairwise_cons.mp h₂ with ⟨hy2, h₂'⟩
          have hxy : x ∈ y :: t₂ := hp.subset (List.mem_cons_self x t)
          have hyx : y ∈ x :: t := hp.symm.subset (List.mem_cons_self y t₂)
          have hn' : x.created_at ∉ t.map (fun it => it.created_at) ∧
              (t.map (fun it => it.created_at)).Nodup := by
            rw [List.map_cons, List.nodup_cons] at hn
            exact hn
          have hxeqy : x = y := by
            rcases List.mem_cons.mp hxy with h | hx2
            · exact h
            rcases List.mem_cons.mp hyx with h | hy1
            · exact h.symm
            have hle1 : y.created_at ≤ x.created_at := hx1 y hy1
            have hle2 : x.created_at ≤ y.created_at := hy2 x hx2
            have heq : x.created_at = y.created_at :=
              Nat.le_antisymm hle2 hle1
            exact absurd
              (heq ▸ List.mem_map_of_mem (fun it => it.created_at) hy1)
              hn'.1
          subst hxeqy
          have ht : t = t₂ := ih t₂ hp.cons_inv h₁' h₂' hn'.2
          rw [ht]

lemma sortDesc_nodup_keys {l : List ItemResponse}
    (h : (l.map (fun it => it.created_at)).Nodup) :
    ((sortDesc l).map (fun it => it.created_at)).Nodup := by
  have hp : ((sortDesc l).map (fun it => it.created_at)).Perm
      (l.map (fun it => it.created_at)) := (sortDesc_perm l).map _
  exact hp.nodup_iff.mpr h

lemma sortDesc_strict3 {A B C : ItemResponse}
    (hAB : A.created_at < B.created_at) (hBC : B.created_at < C.created_at) :
    sortDesc [A, B, C] = [C, B, A] := by
  have hrev : ([A, B, C] : List ItemResponse).reverse = [C, B, A] := rfl
  have hperm : (sortDesc [A, B, C]).Perm [C, B, A] :=
    (sortDesc_perm [A, B, C]).trans (hrev ▸ (List.reverse_perm [A, B, C]).symm)
  apply sortedDesc_unique _ _ hperm (sortDesc_pairwise _) _ _
  · refine List.pairwise_cons.mpr ⟨?_, List.pairwise_cons.mpr
      ⟨?_, List.pairwise_cons.mpr ⟨?_, List.Pairwise.nil⟩⟩⟩
    · intro a' ha'
      rcases List.mem_cons.mp ha' with rfl | ha'
      · exact Nat.le_of_lt hBC
      · rcases List.mem_cons.mp ha' with rfl | ha'
        · exact Nat.le_of_lt (Nat.lt_trans hAB hBC)
        · cases ha'
    · intro a' ha'
      rcases List.mem_cons.mp ha' with rfl | ha'
      · exact Nat.le_of_lt hAB
      · cases ha'
    · intro a' ha'
      cases ha'
  · apply sortDesc_nodup_keys
    simp only [List.map_cons, List.map_nil]
    refine List.nodup_cons.mpr ⟨?_, List.nodup_cons.mpr
      ⟨?_, List.nodup_cons.mpr ⟨?_, List.nodup_nil⟩⟩⟩
    · intro hmem
      rcases List.mem_cons.mp hmem with h | hmem
      · exact absurd h (Nat.ne_of_lt hAB)
      · rcases List.mem_cons.mp hmem with h | hmem
        · exact absurd h (Nat.ne_of_lt (Nat.lt_trans hAB hBC))
        · cases hmem
    · intro hmem
      rcases List.mem_cons.mp hmem with h | hmem
      · exact absurd h (Nat.ne_of_lt hBC)
      · cases hmem
    · intro hmem
      cases hmem

/-! ### The list pipeline -/

lemma pySlice_eq_drop_take (l : List ItemResponse) (skip limit : Nat) :
    pySlice l skip (skip + limit) = (l.drop skip).take limit := by
  unfold pySlice
  rw [List.drop_take, Nat.add_sub_cancel_left]

lemma list_items_ok_eq (st : Registry) (limit skip : Nat)
    (d : Option Bool) (s : Option String)
    (h1 : 1 ≤ limit) (h2 : limit ≤ 100) (hs : s ≠ some "") :
    list_items st limit skip d s =
      Except.ok (((sortDesc (st.filter
        (fun it => passDone d it && passSearch s it))).drop skip).take limit) := by
  unfold list_items
  rw [if_pos ⟨h1, h2⟩, if_neg hs]
  cases d with
  | none =>
      cases s with
      | none => simp [pySlice_eq_drop_take, passDone, passSearch]
      | some q =>
          have hq : ¬ q.isEmpty = true := by
            intro hq
            exact hs (congrArg some ((String.isEmpty_iff q).mp hq))
          simp [pySlice_eq_drop_take, passDone, passSearch, hq]
  | some b =>
      cases s with
      | none => simp [pySlice_eq_drop_take, passDone, passSearch]
      | some q =>
          have hq : ¬ q.isEmpty = true := by
            intro hq
            exact hs (congrArg some ((String.isEmpty_iff q).mp hq))
          have hf : List.filter
                (fun it => containsSub (strLower q) (strLower it.text))
                (List.filter (fun it => it.is_done == b) st) =
              List.filter
                (fun it => passDone (some b) it && passSearch (some q) it) st := by
            rw [List.filter_filter]
            apply List.filter_congr
            intro it _
            simp [passDone, passSearch, Bool.and_comm]
          simp only [hq, if_false, Bool.false_eq_true, hf, pySlice_eq_drop_take]

end TodoAPI

namespace TodoAPI

/-! ### Rounding lemmas -/

lemma ratFloor_eq_floor (q : ℚ) : q.floor = ⌊q⌋ := rfl

lemma roundHalfEven_intCast (n : ℤ) : roundHalfEven ((n : ℚ)) = n := by
  unfold roundHalfEven
  rw [ratFloor_eq_floor, Int.floor_intCast]
  norm_num

lemma pyRound2_intCast (n : ℤ) : pyRound2 ((n : ℚ)) = n := by
  unfold pyRound2
  have h : ((n : ℚ)) * 100 = (((100 * n : ℤ)) : ℚ) := by
    push_cast
    ring
  rw [h, roundHalfEven_intCast]
  push_cast
  field_simp

/-! ### Claim theorems -/

/-- C5: Stats returns the number of stored items as total, the number of
completed items, pending as their difference, and
`completion_rate = round(completed/total*100, 2)` when the store is
non-empty and `0` when it is empty; on 5 items of which 2 are done it
yields total 5, completed 2, pending 3, completion rate 40. -/
theorem stats_counts_and_rate (st : Registry) :
    (get_items_stats st).total_items = st.length ∧
    (get_items_stats st).completed_items =
      (st.filter (fun it => it.is_done)).length ∧
    (get_items_stats st).pending_items =
      st.length - (st.filter (fun it => it.is_done)).length ∧
    (get_items_stats st).completion_rate =
      (if 0 < st.length then
        pyRound2 (((st.filter (fun it => it.is_done)).length : ℚ)
          / (st.length : ℚ) * 100)
      else 0) ∧
    get_items_stats
        [⟨1, "a", true, 1, none⟩, ⟨2, "b", true, 2, none⟩,
         ⟨3, "c", false, 3, none⟩, ⟨4, "d", false, 4, none⟩,
         ⟨5, "e", false, 5, none⟩] =
      { total_items := 5, completed_items := 2, pending_items := 3,
        completion_rate := 40 } := by
  refine ⟨rfl, ?_, ?_, ?_, ?_⟩
  · simp [get_items_stats, List.countP_eq_length_filter]
  · simp [get_items_stats, List.countP_eq_length_filter]
  · simp [get_items_stats, List.countP_eq_length_filter]
  · unfold get_items_stats
    simp only [List.length_cons, List.length_nil, List.countP_cons,
      List.countP_nil]
    norm_num
    rw [show (40 : ℚ) = (((40 : ℤ)) : ℚ) by norm_num, pyRound2_intCast]

set_option maxRecDepth 8000 in
/-- C7: Create with empty text is rejected with a validation error and
stores nothing; Create with text of exactly 500 characters succeeds and
stores the item; Create with 501 characters is rejected. -/
theorem create_text_length_boundaries :
    (create_item [] { text := "", is_done := false } 1 0 =
        Except.error (AppError.validation ["text"]) ∧
      applyOp [] (Op.create { text := "", is_done := false } 1) 0 = []) ∧
    create_item []
        { text := String.mk (List.replicate 500 'a'), is_done := false } 1 0 =
      Except.ok
        ({ id := 1, text := String.mk (List.replicate 500 'a'),
           is_done := false, created_at := 0, updated_at := none },
         [{ id := 1, text := String.mk (List.replicate 500 'a'),
            is_done := false, created_at := 0, updated_at := none }]) ∧
    create_item []
        { text := String.mk (List.replicate 501 'a'), is_done := false } 1 0 =
      Except.error (AppError.validation ["text"]) := by
  exact ⟨⟨rfl, rfl⟩, rfl, rfl⟩

/-- C10: an update request supplying no fields at all succeeds, returns
the stored item, and leaves the store entirely unchanged — in particular
`updated_at` keeps its prior value and stays absent if it was absent. -/
theorem empty_update_returns_item_unchanged
    (st : Registry) (id : Nat) (now : Timestamp) (it : ItemResponse)
    (hk : KeysUnique st) (hl : itemsStoreLookup st id = some it) :
    update_item st id { text := none, is_done := none } now =
      Except.ok (it, st) := by
  have h1 : get_item_by_id st id = Except.ok it := by
    unfold get_item_by_id
    rw [hl]
  have hres : update_item st id { text := none, is_done := none } now =
      Except.ok (it, replaceItem st id it) := by
    unfold update_item
    rw [h1]
    rfl
  rw [hres, replaceItem_lookup_self_eq hk hl]

/-- Witness for C10 at a concrete store. -/
theorem empty_update_returns_item_unchanged_witness :
    update_item
        [{ id := 1, text := "a", is_done := false, created_at := 2,
           updated_at := none }] 1
        { text := none, is_done := none } 7 =
      Except.ok
        ({ id := 1, text := "a", is_done := false, created_at := 2,
           updated_at := none },
         [{ id := 1, text := "a", is_done := false, created_at := 2,
            updated_at := none }]) :=
  empty_update_returns_item_unchanged _ 1 7 _ (by decide) (by decide)

/-- C2: an update whose supplied text is empty or over 500 characters is
rejected with a validation error before any mutation: the store, and in
particular the targeted stored item, is exactly as before. -/
theorem invalid_update_rejected_without_mutation
    (st : Registry) (id : Nat) (upd : ItemUpdate) (now : Timestamp)
    (it : ItemResponse) (t : String)
    (hl : itemsStoreLookup st id = some it)
    (ht : upd.text = some t)
    (hbad : t.length = 0 ∨ 500 < t.length) :
    update_item st id upd now =
      Except.error (AppError.validation ["text"]) ∧
    applyOp st (Op.update id upd) now = st ∧
    itemsStoreLookup (applyOp st (Op.update id upd) now) id = some it := by
  have hv : validItemUpdate upd = false := by
    unfold validItemUpdate
    rw [ht]
    unfold validText
    rcases hbad with h | h
    · simp [h]
    · have hgt : ¬ t.length ≤ 500 := by omega
      simp [hgt]
  have hres : update_item st id upd now =
      Except.error (AppError.validation ["text"]) := by
    unfold update_item
    rw [hv]
    simp
  refine ⟨hres, ?_, ?_⟩
  · simp only [applyOp, hres]
  · simp only [applyOp, hres]
    exact hl

/-- Witness for C2 at a concrete store and request. -/
theorem invalid_update_rejected_witness :
    update_item
        [{ id := 1, text := "a", is_done := false, created_at := 2,
           updated_at := none }] 1
        { text := some "", is_done := none } 7 =
      Except.error (AppError.validation ["text"]) ∧
    applyOp
        [{ id := 1, text := "a", is_done := false, created_at := 2,
           updated_at := none }]
        (Op.update 1 { text := some "", is_done := none }) 7 =
      [{ id := 1, text := "a", is_done := false, created_at := 2,
         updated_at := none }] ∧
    itemsStoreLookup
        (applyOp
          [{ id := 1, text := "a", is_done := false, created_at := 2,
             updated_at := none }]
          (Op.update 1 { text := some "", is_done := none }) 7) 1 =
      some { id := 1, text := "a", is_done := false, created_at := 2,
             updated_at := none } :=
  invalid_update_rejected_without_mutation _ 1 _ 7 _ ""
    (by decide) rfl (Or.inl rfl)

/-- C1: an update supplying a non-empty subset of {text, is_done} (with a
valid supplied text) overwrites exactly the supplied fields, keeps id,
created_at and every unsupplied field at their prior values, sets
updated_at to the current time, stores the updated item under the same
id leaving every other id untouched, and returns the updated item. -/
theorem update_applies_exactly_supplied_fields
    (st : Registry) (id : Nat) (upd : ItemUpdate) (now : Timestamp)
    (it : ItemResponse) (j : Nat)
    (hl : itemsStoreLookup st id = some it)
    (hv : validItemUpdate upd = true)
    (hne : upd.text.isSome = true ∨ upd.is_done.isSome = true)
    (hj : j ≠ id) :
    update_item st id upd now =
      Except.ok
        ({ id := it.id, text := upd.text.getD it.text,
           is_done := upd.is_done.getD it.is_done,
           created_at := it.created_at, updated_at := some now },
         replaceItem st id
           { id := it.id, text := upd.text.getD it.text,
             is_done := upd.is_done.getD it.is_done,
             created_at := it.created_at, updated_at := some now }) ∧
    itemsStoreLookup
        (replaceItem st id
          { id := it.id, text := upd.text.getD it.text,
            is_done := upd.is_done.getD it.is_done,
            created_at := it.created_at, updated_at := some now }) id =
      some { id := it.id, text := upd.text.getD it.text,
             is_done := upd.is_done.getD it.is_done,
             created_at := it.created_at, updated_at := some now } ∧
    itemsStoreLookup
        (replaceItem st id
          { id := it.id, text := upd.text.getD it.text,
            is_done := upd.is_done.getD it.is_done,
            created_at := it.created_at, updated_at := some now }) j =
      itemsStoreLookup st j := by
  have hA : applyUpdate it upd now =
      { id := it.id, text := upd.text.getD it.text,
        is_done := upd.is_done.getD it.is_done,
        created_at := it.created_at, updated_at := some now } := by
    unfold applyUpdate
    have hc : (upd.text.isSome || upd.is_done.isSome) = true :=
      Bool.or_eq_true _ _ |>.mpr hne
    rw [if_pos hc]
  have h1 : get_item_by_id st id = Except.ok it := by
    unfold get_item_by_id
    rw [hl]
  have hres : update_item st id upd now =
      Except.ok (applyUpdate it upd now,
        replaceItem st id (applyUpdate it upd now)) := by
    unfold update_item
    rw [hv, h1]
    rfl
  rw [hres, hA]
  refine ⟨rfl, ?_, ?_⟩
  · refine lookup_replaceItem_self ?_ hl
    exact (lookup_id hl : it.id = id)
  · refine lookup_replaceItem_ne ?_ hj
    exact (lookup_id hl : it.id = id)

/-- Witness for C1 at a concrete store, supplying only the text field. -/
theorem update_applies_exactly_supplied_fields_witness :
    update_item
        [⟨1, "old", false, 3, none⟩, ⟨2, "keep", true, 4, none⟩] 1
        { text := some "new", is_done := none } 9 =
      Except.ok
        (⟨1, "new", false, 3, some 9⟩,
         [⟨1, "new", false, 3, some 9⟩, ⟨2, "keep", true, 4, none⟩]) ∧
    itemsStoreLookup
        [⟨1, "new", false, 3, some 9⟩, ⟨2, "keep", true, 4, none⟩] 1 =
      some ⟨1, "new", false, 3, some 9⟩ ∧
    itemsStoreLookup
        [⟨1, "new", false, 3, some 9⟩, ⟨2, "keep", true, 4, none⟩] 2 =
      itemsStoreLookup
        [⟨1, "old", false, 3, none⟩, ⟨2, "keep", true, 4, none⟩] 2 :=
  update_applies_exactly_supplied_fields
    [⟨1, "old", false, 3, none⟩, ⟨2, "keep", true, 4, none⟩] 1
    { text := some "new", is_done := none } 9
    ⟨1, "old", false, 3, none⟩ 2
    (by decide) (by decide) (Or.inl rfl) (by decide)

/-- C6 counterexample: Create with empty text is rejected through the
request-validation path, and its rendered body is not the standard
`{detail, status_code, timestamp}` shape — refuting the claim that every
error response (422 validation errors included) has that shape. -/
theorem validation_error_shape_counterexample :
    create_item [] { text := "", is_done := false } 1 0 =
      Except.error (AppError.validation ["text"]) ∧
    isStandardErrorShape (renderError (AppError.validation ["text"]) 0) =
      false :=
  ⟨rfl, rfl⟩

/-- C6 amended: every error raised as an HTTPException — in particular
every 404 not-found — renders through the registered handler to the
standard body `{detail, status_code, timestamp}` with the failure-time
timestamp; a 422 validation failure instead renders to the framework
default body, which does not have the standard shape. -/
theorem httpexc_error_body_standard_shape
    (st : Registry) (id : Nat) (now : Timestamp) (e : HTTPExc)
    (h : get_item_by_id st id = Except.error e) :
    renderError (AppError.httpExc e) now =
      ErrorBody.standard
        { detail := e.detail, status_code := e.status_code,
          timestamp := now } ∧
    e.status_code = 404 ∧
    e.detail = "Item with id " ++ toString id ++ " not found" ∧
    isStandardErrorShape (renderError (AppError.httpExc e) now) = true ∧
    isStandardErrorShape (renderError (AppError.validation ["text"]) now) =
      false := by
  unfold get_item_by_id at h
  cases hlk : itemsStoreLookup st id with
  | none =>
      rw [hlk] at h
      injection h with h
      exact ⟨rfl, by rw [← h], by rw [← h], rfl, rfl⟩
  | some it =>
      rw [hlk] at h
      exact absurd h (by simp)


/-! ### More helpers for the list and invariant claims -/

lemma listOk_eq {st : Registry} {limit skip : Nat} {d : Option Bool}
    {s : Option String} {X : List ItemResponse}
    (h : list_items st limit skip d s = Except.ok X) :
    listOk st limit skip d s = X := by
  unfold listOk
  rw [h]
  rfl

lemma applyUpdate_id (it : ItemResponse) (upd : ItemUpdate)
    (now : Timestamp) : (applyUpdate it upd now).id = it.id := by
  unfold applyUpdate
  split <;> rfl

lemma applyUpdate_created (it : ItemResponse) (upd : ItemUpdate)
    (now : Timestamp) :
    (applyUpdate it upd now).created_at = it.created_at := by
  unfold applyUpdate
  split <;> rfl

lemma wfItem_applyUpdate {it : ItemResponse} {upd : ItemUpdate}
    {now : Timestamp} (hwf : wfItem it) (hc : it.created_at ≤ now) :
    wfItem (applyUpdate it upd now) := by
  unfold applyUpdate
  split
  · simpa [wfItem] using hc
  · exact hwf

lemma filter_pass_none (l : Registry) :
    List.filter (fun it => passDone none it && passSearch none it) l = l := by
  simp [passDone, passSearch]

/-- C3: for valid query arguments (limit in [1,100], any skip, search
absent or non-empty), List returns exactly the items passing the is_done
equality filter and the case-insensitive substring filter, sorted by
created_at descending, with the first skip items dropped and at most
limit items taken, in that pipeline order; the sorted list is a
permutation of the filtered items and is pairwise descending in
created_at. -/
theorem list_items_pipeline
    (st : Registry) (limit skip : Nat) (d : Option Bool) (s : Option String)
    (h1 : 1 ≤ limit) (h2 : limit ≤ 100) (hs : s ≠ some "") :
    list_items st limit skip d s =
      Except.ok (((sortDesc (st.filter
        (fun it => passDone d it && passSearch s it))).drop skip).take limit) ∧
    (sortDesc (st.filter (fun it => passDone d it && passSearch s it))).Perm
      (st.filter (fun it => passDone d it && passSearch s it)) ∧
    (sortDesc (st.filter
        (fun it => passDone d it && passSearch s it))).Pairwise
      (fun a b => b.created_at ≤ a.created_at) :=
  ⟨list_items_ok_eq st limit skip d s h1 h2 hs, sortDesc_perm _,
    sortDesc_pairwise _⟩

/-- Witness for C3: completed-only items matching a case-insensitive
search, sorted newest first, with skip 1 and limit 2. -/
theorem list_items_pipeline_witness :
    list_items
        [⟨1, "Alpha", true, 10, none⟩, ⟨2, "beta", false, 20, none⟩,
         ⟨3, "altro", true, 30, none⟩] 2 1 (some true) (some "AL") =
      Except.ok [⟨1, "Alpha", true, 10, none⟩] ∧
    List.Perm
      ([⟨3, "altro", true, 30, none⟩, ⟨1, "Alpha", true, 10, none⟩] :
        List ItemResponse)
      [⟨1, "Alpha", true, 10, none⟩, ⟨3, "altro", true, 30, none⟩] ∧
    List.Pairwise (fun a b => b.created_at ≤ a.created_at)
      ([⟨3, "altro", true, 30, none⟩, ⟨1, "Alpha", true, 10, none⟩] :
        List ItemResponse) :=
  list_items_pipeline
    [⟨1, "Alpha", true, 10, none⟩, ⟨2, "beta", false, 20, none⟩,
     ⟨3, "altro", true, 30, none⟩] 2 1 (some true) (some "AL")
    (by decide) (by decide) (by decide)

/-- C4: with three items created in order A, B, C at strictly increasing
creation times, an unfiltered List with skip 0 and limit at least 3
returns [C, B, A]; and any two stored items with equal created_at keep
their relative insertion order in an unfiltered full List result. -/
theorem list_ordering_newest_first_and_stable
    (A B C : ItemResponse) (limit : Nat) (a b : ItemResponse) (l : Registry)
    (hAB : A.created_at < B.created_at) (hBC : B.created_at < C.created_at)
    (h3 : 3 ≤ limit) (h100 : limit ≤ 100)
    (hab : a.created_at = b.created_at) (hsub : List.Sublist [a, b] l)
    (hlen : l.length ≤ limit) :
    list_items [A, B, C] limit 0 none none = Except.ok [C, B, A] ∧
    List.Sublist [a, b] (listOk l limit 0 none none) := by
  have h1 : 1 ≤ limit := by omega
  constructor
  · rw [list_items_ok_eq [A, B, C] limit 0 none none h1 h100 (by simp)]
    rw [filter_pass_none, sortDesc_strict3 hAB hBC, List.drop_zero,
      List.take_of_length_le
        (by simp only [List.length_cons, List.length_nil]; omega)]
  · rw [listOk_eq (list_items_ok_eq l limit 0 none none h1 h100 (by simp))]
    rw [filter_pass_none, List.drop_zero,
      List.take_of_length_le (by rw [sortDesc_length]; omega)]
    exact pair_sublist_sortDesc hab hsub

/-- Witness for C4: three strictly increasing creations come back
reversed, and two items sharing a creation time keep insertion order. -/
theorem list_ordering_newest_first_and_stable_witness :
    list_items
        [⟨1, "p", false, 1, none⟩, ⟨2, "q", false, 2, none⟩,
         ⟨3, "r", false, 3, none⟩] 10 0 none none =
      Except.ok
        [⟨3, "r", false, 3, none⟩, ⟨2, "q", false, 2, none⟩,
         ⟨1, "p", false, 1, none⟩] ∧
    List.Sublist [⟨4, "x", false, 5, none⟩, ⟨5, "y", false, 5, none⟩]
      (listOk [⟨4, "x", false, 5, none⟩, ⟨5, "y", false, 5, none⟩]
        10 0 none none) :=
  list_ordering_newest_first_and_stable
    ⟨1, "p", false, 1, none⟩ ⟨2, "q", false, 2, none⟩ ⟨3, "r", false, 3, none⟩
    10 ⟨4, "x", false, 5, none⟩ ⟨5, "y", false, 5, none⟩
    [⟨4, "x", false, 5, none⟩, ⟨5, "y", false, 5, none⟩]
    (by decide) (by decide) (by decide) (by decide) (by decide)
    (List.Sublist.refl _) (by decide)

/-- C9 counterexample: with two stored items and limit 1, skip 0, the
is_done=true result contains an item that is not in the unfiltered
result, so the union of the two filtered results differs from the
unfiltered result at this limit and skip. -/
theorem list_union_pagination_counterexample :
    list_items [⟨1, "a", true, 1, none⟩, ⟨2, "b", false, 2, none⟩] 1 0
        (some true) none = Except.ok [⟨1, "a", true, 1, none⟩] ∧
    list_items [⟨1, "a", true, 1, none⟩, ⟨2, "b", false, 2, none⟩] 1 0
        (some false) none = Except.ok [⟨2, "b", false, 2, none⟩] ∧
    list_items [⟨1, "a", true, 1, none⟩, ⟨2, "b", false, 2, none⟩] 1 0
        none none = Except.ok [⟨2, "b", false, 2, none⟩] ∧
    (⟨1, "a", true, 1, none⟩ : ItemResponse) ∉
      ([⟨2, "b", false, 2, none⟩] : List ItemResponse) := by
  refine ⟨?_, ?_, ?_, ?_⟩ <;> decide

/-- Witness for the amended C6 at a concrete missed lookup. -/
theorem httpexc_error_body_standard_shape_witness :
    renderError
        (AppError.httpExc ⟨404, "Item with id 5 not found"⟩) 3 =
      ErrorBody.standard
        { detail := "Item with id 5 not found", status_code := 404,
          timestamp := 3 } ∧
    (404 : Nat) = 404 ∧
    "Item with id 5 not found" = "Item with id " ++ toString 5 ++ " not found" ∧
    isStandardErrorShape
        (renderError (AppError.httpExc ⟨404, "Item with id 5 not found"⟩) 3) =
      true ∧
    isStandardErrorShape (renderError (AppError.validation ["text"]) 3) =
      false :=
  httpexc_error_body_standard_shape [] 5 3 ⟨404, "Item with id 5 not found"⟩
    (by rfl)

/-- C9 amended: the is_done=true List result contains only completed
items (for every valid limit, skip and search); and when skip = 0 and
limit is at least the number of stored items — so the slice truncates
nothing — an item is in the union of the is_done=true and is_done=false
results exactly when it is in the unfiltered result.  (With a smaller
limit the union can strictly exceed the unfiltered result: see the
pagination counterexample.) -/
theorem list_done_filter_and_union
    (st : Registry) (limit skip : Nat) (s : Option String) (x : ItemResponse)
    (h1 : 1 ≤ limit) (h2 : limit ≤ 100) (hs : s ≠ some "") :
    (x ∈ listOk st limit skip (some true) s → x.is_done = true) ∧
    (skip = 0 → st.length ≤ limit →
      ((x ∈ listOk st limit skip (some true) s ∨
        x ∈ listOk st limit skip (some false) s) ↔
        x ∈ listOk st limit skip none s)) := by
  constructor
  · intro hx
    rw [listOk_eq (list_items_ok_eq st limit skip (some true) s h1 h2 hs)]
      at hx
    have hx2 := List.mem_of_mem_drop (List.mem_of_mem_take hx)
    rw [sortDesc_mem] at hx2
    have hpred := (List.mem_filter.mp hx2).2
    rw [Bool.and_eq_true] at hpred
    have h := hpred.1
    simpa [passDone] using h
  · intro h0 hlen
    subst h0
    have hfull : ∀ (d : Option Bool),
        listOk st limit 0 d s =
          sortDesc (st.filter
            (fun it => passDone d it && passSearch s it)) := by
      intro d
      rw [listOk_eq (list_items_ok_eq st limit 0 d s h1 h2 hs),
        List.drop_zero, List.take_of_length_le]
      rw [sortDesc_length]
      exact Nat.le_trans (List.length_filter_le _ _) hlen
    rw [hfull (some true), hfull (some false), hfull none]
    rw [sortDesc_mem, sortDesc_mem, sortDesc_mem]
    simp only [List.mem_filter]
    cases hxd : x.is_done with
    | true => simp [passDone, hxd]
    | false => simp [passDone, hxd]

/-- Witness for the amended C9 on a two-item store with a full limit. -/
theorem list_done_filter_and_union_witness :
    ((⟨1, "a", true, 1, none⟩ : ItemResponse).is_done = true) ∧
    (((⟨1, "a", true, 1, none⟩ : ItemResponse) ∈
        listOk [⟨1, "a", true, 1, none⟩, ⟨2, "b", false, 2, none⟩] 2 0
          (some true) none ∨
      (⟨1, "a", true, 1, none⟩ : ItemResponse) ∈
        listOk [⟨1, "a", true, 1, none⟩, ⟨2, "b", false, 2, none⟩] 2 0
          (some false) none) ↔
      (⟨1, "a", true, 1, none⟩ : ItemResponse) ∈
        listOk [⟨1, "a", true, 1, none⟩, ⟨2, "b", false, 2, none⟩] 2 0
          none none) :=
  ⟨(list_done_filter_and_union
      [⟨1, "a", true, 1, none⟩, ⟨2, "b", false, 2, none⟩] 2 0 none
      ⟨1, "a", true, 1, none⟩ (by decide) (by decide) (by decide)).1
      (by decide),
    (list_done_filter_and_union
      [⟨1, "a", true, 1, none⟩, ⟨2, "b", false, 2, none⟩] 2 0 none
      ⟨1, "a", true, 1, none⟩ (by decide) (by decide) (by decide)).2
      rfl (by decide)⟩

/-- C8: every registry operation — Create, Get, Update, Delete, List,
Stats — preserves the timestamp invariants: an item present before and
after the operation keeps its created_at unchanged, and after the
operation every stored item has updated_at absent or at least its
created_at.  (The clock hypothesis says no stored creation time lies in
the future.) -/
theorem registry_ops_preserve_timestamp_invariants
    (st : Registry) (op : Op) (now : Timestamp) (j : Nat)
    (it it' : ItemResponse)
    (hk : KeysUnique st)
    (hclock : ∀ x ∈ st, x.created_at ≤ now)
    (hwf : wfTimes st) :
    wfTimes (applyOp st op now) ∧
    (itemsStoreLookup st j = some it →
      itemsStoreLookup (applyOp st op now) j = some it' →
      it'.created_at = it.created_at) := by
  cases op with
  | get id =>
      refine ⟨hwf, fun hlj hlj' => ?_⟩
      rw [show applyOp st (Op.get id) now = st from rfl, hlj] at hlj'
      injection hlj' with h
      rw [h]
  | list limit skip d s =>
      refine ⟨hwf, fun hlj hlj' => ?_⟩
      rw [show applyOp st (Op.list limit skip d s) now = st from rfl, hlj]
        at hlj'
      injection hlj' with h
      rw [h]
  | stats =>
      refine ⟨hwf, fun hlj hlj' => ?_⟩
      rw [show applyOp st Op.stats now = st from rfl, hlj] at hlj'
      injection hlj' with h
      rw [h]
  | create req fid =>
      cases hv : validItemCreate req with
      | true =>
          have hcr : create_item st req fid now =
              Except.ok
                ({ id := fid, text := req.text, is_done := req.is_done,
                   created_at := now, updated_at := none },
                 st ++ [{ id := fid, text := req.text,
                          is_done := req.is_done, created_at := now,
                          updated_at := none }]) := by
            unfold create_item
            rw [hv]
            rfl
          have happ : applyOp st (Op.create req fid) now =
              st ++ [{ id := fid, text := req.text, is_done := req.is_done,
                       created_at := now, updated_at := none }] := by
            simp only [applyOp, hcr]
          rw [happ]
          constructor
          · intro y hy
            rcases List.mem_append.mp hy with hy | hy
            · exact hwf y hy
            · rcases List.mem_cons.mp hy with rfl | hy
              · simp [wfItem]
              · cases hy
          · intro hlj hlj'
            rw [lookup_append_left hlj] at hlj'
            injection hlj' with h
            rw [← h]
      | false =>
          have hcr : create_item st req fid now =
              Except.error (AppError.validation ["text"]) := by
            unfold create_item
            rw [hv]
            rfl
          have happ : applyOp st (Op.create req fid) now = st := by
            simp only [applyOp, hcr]
          rw [happ]
          refine ⟨hwf, fun hlj hlj' => ?_⟩
          rw [hlj] at hlj'
          injection hlj' with h
          rw [h]
  | update id upd =>
      cases hv : validItemUpdate upd with
      | false =>
          have hup : update_item st id upd now =
              Except.error (AppError.validation ["text"]) := by
            unfold update_item
            rw [hv]
            rfl
          have happ : applyOp st (Op.update id upd) now = st := by
            simp only [applyOp, hup]
          rw [happ]
          refine ⟨hwf, fun hlj hlj' => ?_⟩
          rw [hlj] at hlj'
          injection hlj' with h
          rw [h]
      | true =>
          cases hlk : itemsStoreLookup st id with
          | none =>
              have hup : update_item st id upd now =
                  Except.error (AppError.httpExc
                    { status_code := 404
                      detail :=
                        "Item with id " ++ toString id ++ " not found" }) := by
                unfold update_item get_item_by_id
                rw [hv, hlk]
                rfl
              have happ : applyOp st (Op.update id upd) now = st := by
                simp only [applyOp, hup]
              rw [happ]
              refine ⟨hwf, fun hlj hlj' => ?_⟩
              rw [hlj] at hlj'
              injection hlj' with h
              rw [h]
          | some it₀ =>
              have h1 : get_item_by_id st id = Except.ok it₀ := by
                unfold get_item_by_id
                rw [hlk]
              have hup : update_item st id upd now =
                  Except.ok (applyUpdate it₀ upd now,
                    replaceItem st id (applyUpdate it₀ upd now)) := by
                unfold update_item
                rw [hv, h1]
                rfl
              have happ : applyOp st (Op.update id upd) now =
                  replaceItem st id (applyUpdate it₀ upd now) := by
                simp only [applyOp, hup]
              rw [happ]
              have hidU : (applyUpdate it₀ upd now).id = id := by
                rw [applyUpdate_id]
                exact lookup_id hlk
              constructor
              · intro y hy
                rcases List.mem_map.mp hy with ⟨x, hx, hfx⟩
                by_cases hxid : (x.id == id) = true
                · rw [if_pos hxid] at hfx
                  rw [← hfx]
                  exact wfItem_applyUpdate (hwf it₀ (lookup_mem hlk))
                    (hclock it₀ (lookup_mem hlk))
                · rw [if_neg hxid] at hfx
                  rw [← hfx]
                  exact hwf x hx
              · intro hlj hlj'
                by_cases hj : j = id
                · subst hj
                  rw [lookup_replaceItem_self hidU hlk] at hlj'
                  injection hlj' with h
                  rw [← h, applyUpdate_created]
                  rw [hlk] at hlj
                  injection hlj with h2
                  rw [h2]
                · rw [lookup_replaceItem_ne hidU hj, hlj] at hlj'
                  injection hlj' with h
                  rw [h]
  | delete id =>
      cases hlk : itemsStoreLookup st id with
      | none =>
          have hdel : delete_item st id =
              Except.error (AppError.httpExc
                { status_code := 404
                  detail :=
                    "Item with id " ++ toString id ++ " not found" }) := by
            unfold delete_item get_item_by_id
            rw [hlk]
          have happ : applyOp st (Op.delete id) now = st := by
            simp only [applyOp, hdel]
          rw [happ]
          refine ⟨hwf, fun hlj hlj' => ?_⟩
          rw [hlj] at hlj'
          injection hlj' with h
          rw [h]
      | some it₀ =>
          have h1 : get_item_by_id st id = Except.ok it₀ := by
            unfold get_item_by_id
            rw [hlk]
          have hdel : delete_item st id =
              Except.ok (st.eraseP (fun x => x.id == it₀.id)) := by
            unfold delete_item
            rw [h1]
          have hid0 : it₀.id = id := lookup_id hlk
          have happ : applyOp st (Op.delete id) now =
              st.eraseP (fun x => x.id == it₀.id) := by
            simp only [applyOp, hdel]
          rw [happ, hid0]
          constructor
          · intro y hy
            exact hwf y (List.Sublist.mem hy (List.eraseP_sublist st))
          · intro hlj hlj'
            by_cases hj : j = id
            · subst hj
              rw [lookup_eraseP_self hk] at hlj'
              cases hlj'
            · rw [lookup_eraseP_ne hj, hlj] at hlj'
              injection hlj' with h
              rw [h]

/-- Witness for C8: an update on a one-item store keeps created_at and
sets a well-formed updated_at. -/
theorem registry_ops_preserve_timestamp_invariants_witness :
    wfTimes
      (applyOp [⟨1, "a", false, 3, none⟩]
        (Op.update 1 { text := none, is_done := some true }) 5) ∧
    (⟨1, "a", true, 3, some 5⟩ : ItemResponse).created_at =
      (⟨1, "a", false, 3, none⟩ : ItemResponse).created_at :=
  ⟨(registry_ops_preserve_timestamp_invariants
      [⟨1, "a", false, 3, none⟩]
      (Op.update 1 { text := none, is_done := some true }) 5 1
      ⟨1, "a", false, 3, none⟩ ⟨1, "a", true, 3, some 5⟩
      (by decide) (by decide) (by decide)).1,
    (registry_ops_preserve_timestamp_invariants
      [⟨1, "a", false, 3, none⟩]
      (Op.update 1 { text := none, is_done := some true }) 5 1
      ⟨1, "a", false, 3, none⟩ ⟨1, "a", true, 3, some 5⟩
      (by decide) (by decide) (by decide)).2 (by decide) (by decide)⟩

end TodoAPI

